import Mathlib

/-!
Verification of the composer engine of the story_app repository.

The definitions below are a shallow embedding of
src/backend_configured/src/composer/state.py,
src/backend_configured/src/composer/graph.py and
src/backend_configured/src/composer/config_loader.py.
Python floats that hold quality scores are modelled as rationals; the
open-ended state dictionary is modelled as a record holding exactly the
fields the routing logic and the bookkeeping read.  Step implementations
(the agent nodes) are opaque functions from state to state that may fail,
mirroring `StepFn(state) -> StateRecord` which may raise; `Except.error`
models a raised exception.  The LangGraph runtime that executes the
compiled graph is modelled by an explicit fuel-indexed interpreter:
a node runs, then its outgoing edge is resolved (a fixed successor for
`add_edge`, or the decision function followed by a lookup of the returned
label in the path map for `add_conditional_edges`, where a label absent
from the path map is a runtime lookup error and the sentinel value END
terminates the run); exhausted fuel models the recursion-limit error of
the runtime.
-/

namespace StoryApp

/-- Routing map of a conditional step: association list from outcome label
to destination node name, the string END being the terminal sentinel. -/
abbrev RoutingMap := List (String × String)

def rmGet (m : RoutingMap) (k : String) : Option String :=
  List.lookup k m

/-- The fields of ComposerState (state.py) that the composer engine itself
reads or writes.  quality_score is Optional in the source; none models the
Python value None. -/
structure ComposerState where
  use_case : String
  workflow_step : String
  current_agent : String
  completed_steps : List String
  quality_score : Option ℚ
  revision_count : Nat
  max_revisions : Nat
  errors : List String
deriving Repr, DecidableEq

/-- create_initial_state (state.py): all bookkeeping fields zeroed or
empty, revision_count 0, quality_score None. -/
def create_initial_state (use_case : String) (max_revisions : Nat) : ComposerState :=
  { use_case := use_case
    workflow_step := "initialization"
    current_agent := ""
    completed_steps := []
    quality_score := none
    revision_count := 0
    max_revisions := max_revisions
    errors := [] }

/-- should_continue_workflow (state.py, lines 214-236). -/
def should_continue_workflow (s : ComposerState) : Bool :=
  if !s.errors.isEmpty then false
  else if s.workflow_step == "completed" then false
  else if s.revision_count ≥ s.max_revisions then false
  else true

/-- Python truthiness of the quality score: None and 0.0 are falsy. -/
def qsTruthy : Option ℚ → Bool
  | none => false
  | some q => q != 0

/-- The comparison quality_score < 7.  In the source this comparison is
reached only when the truthiness guard already succeeded, so the value in
the none case is irrelevant; false matches the short-circuit. -/
def qsBelow7 : Option ℚ → Bool
  | none => false
  | some q => decide (q < 7)

/-- DynamicGraph._route_conditional_agent (graph.py, lines 231-267).
The source reads quality_score with state.get and a default of 7.0: for a
state created by create_initial_state the key always exists, so the
default never fires and the None value is covered by the truthiness
guard (both the missing key and the None value route to end). -/
def route_conditional_agent (s : ComposerState) (routing_map : RoutingMap) : String :=
  if !should_continue_workflow s then "end"
  else if s.current_agent == "critique" then
    if qsTruthy s.quality_score && qsBelow7 s.quality_score
        && decide (s.revision_count < s.max_revisions)
    then "revise"
    else "end"
  else (rmGet routing_map "default").getD "end"

/-- A step implementation: may return a new state or raise. -/
abbrev StepFn := ComposerState → Except String ComposerState

/-- The step tracking at the end of the wrapped agent (graph.py, lines
177-178): append the agent name to completed_steps if it is not already
present. -/
def appendStep (agent_name : String) (result_state : ComposerState) : ComposerState :=
  if result_state.completed_steps.contains agent_name then result_state
  else { result_state with
           completed_steps := result_state.completed_steps ++ [agent_name] }

/-- DynamicGraph._wrap_agent_function (graph.py, lines 143-182): sets the
use_case field, runs the agent body, then appends the agent name to
completed_steps if it is not already present.  The prompt injection into
agent_config is omitted: the engine and the claims never read it. -/
def wrapAgent (use_case_name : String) (agent_function : StepFn) (agent_name : String) : StepFn :=
  fun state =>
    match agent_function { state with use_case := use_case_name } with
    | .error e => .error e
    | .ok result_state => .ok (appendStep agent_name result_state)

/-- Outgoing edge of a node: a fixed successor (none meaning END) from
add_edge, or a conditional edge carrying the routing map. -/
inductive Edge where
  | linear (next : Option String)
  | conditional (routing_map : RoutingMap)
deriving Repr

/-- One step declaration from use_cases.yaml as read by the engine. -/
structure AgentConfig where
  name : String
  enabled : Bool
  edge_type : String
  routing_map : RoutingMap

/-- ConfigLoader.get_enabled_agents (config_loader.py, lines 135-148). -/
def get_enabled_agents (agents : List AgentConfig) : List AgentConfig :=
  agents.filter (fun a => a.enabled)

/-- The names added as nodes in the first loop of _build_workflow: enabled
agents whose name resolves in the agent function registry. -/
def addedNames (enabled : List AgentConfig) (registry : String → Option StepFn) : List String :=
  enabled.filterMap (fun c => if (registry c.name).isSome then some c.name else none)

/-- Successor of the linear agent at index i (graph.py, lines 215-229):
the next entry of the enabled list if its node was added, otherwise END. -/
def linearNext (enabled : List AgentConfig) (added : List String) (i : Nat) : Option String :=
  match enabled.get? (i + 1) with
  | none => none
  | some nxt => if added.contains nxt.name then some nxt.name else none

/-- Edge installed for one agent by _add_edges (graph.py, lines 184-229). -/
def agentEdge (enabled : List AgentConfig) (added : List String) (i : Nat)
    (c : AgentConfig) : Edge :=
  if c.edge_type == "conditional" then .conditional c.routing_map
  else .linear (linearNext enabled added i)

/-- The indexed loop of _add_edges over the enabled agents, starting at
index i: an agent whose name is not among the added nodes is skipped. -/
def buildEdgesGo (enabled : List AgentConfig) (added : List String) :
    Nat → List AgentConfig → List (String × Edge)
  | _, [] => []
  | i, c :: rest =>
      if added.contains c.name then
        (c.name, agentEdge enabled added i c) :: buildEdgesGo enabled added (i + 1) rest
      else buildEdgesGo enabled added (i + 1) rest

/-- The edge list built by _add_edges: one edge per enabled agent whose
name is among the added nodes. -/
def buildEdges (enabled : List AgentConfig) (added : List String) : List (String × Edge) :=
  buildEdgesGo enabled added 0 enabled

/-- The node list built by the first loop of _build_workflow: each enabled
agent with a resolvable function, wrapped by _wrap_agent_function. -/
def buildNodes (uc : String) (enabled : List AgentConfig)
    (registry : String → Option StepFn) : List (String × StepFn) :=
  enabled.filterMap (fun c =>
    match registry c.name with
    | none => none
    | some f => some (c.name, wrapAgent uc f c.name))

structure CompiledGraph where
  entry : String
  nodes : List (String × StepFn)
  edges : List (String × Edge)

/-- DynamicGraph._build_workflow (graph.py, lines 59-101): raises when no
enabled agent resolves to a function, otherwise the entry point is the
first added agent. -/
def buildWorkflow (uc : String) (enabled : List AgentConfig)
    (registry : String → Option StepFn) : Except String CompiledGraph :=
  match addedNames enabled registry with
  | [] => .error ("No valid agent nodes found for use case " ++ uc)
  | first :: _ =>
      .ok { entry := first
            nodes := buildNodes uc enabled registry
            edges := buildEdges enabled (addedNames enabled registry) }

/-- Compilation of a use case: filter to enabled agents, then build. -/
def compileUseCase (uc : String) (agents : List AgentConfig)
    (registry : String → Option StepFn) : Except String CompiledGraph :=
  buildWorkflow uc (get_enabled_agents agents) registry

/-- Resolution of an outgoing edge after a node returned state s: a fixed
successor passes through; a conditional edge evaluates the decision
function and looks the returned label up in the routing map, where a
missing label is a runtime lookup error and END means terminal. -/
def nextTarget (e : Edge) (s : ComposerState) : Except String (Option String) :=
  match e with
  | .linear nxt => .ok nxt
  | .conditional m =>
      match rmGet m (route_conditional_agent s m) with
      | none => .error ("KeyError: " ++ route_conditional_agent s m)
      | some d => .ok (if d == "END" then none else some d)

/-- The execution loop of the compiled graph, fuel-indexed; fuel 0 models
the recursion-limit error of the graph runtime. -/
def runFrom (g : CompiledGraph) (fuel : Nat) (node : String)
    (s : ComposerState) : Except String ComposerState :=
  match fuel with
  | 0 => .error "GraphRecursionError"
  | fuel + 1 =>
      match List.lookup node g.nodes with
      | none => .error ("Unknown node: " ++ node)
      | some fn =>
          match fn s with
          | .error e => .error e
          | .ok s1 =>
              match List.lookup node g.edges with
              | none => .error ("Dead-end node: " ++ node)
              | some e =>
                  match nextTarget e s1 with
                  | .error msg => .error msg
                  | .ok none => .ok s1
                  | .ok (some nxt) => runFrom g fuel nxt s1

/-- DynamicGraph.run (graph.py, lines 269-311): invoke the compiled graph
on the initial state; an exception escaping the runtime is re-raised to
the caller (the except clause logs and raises), so errors propagate. -/
def runGraph (g : CompiledGraph) (fuel : Nat) (s : ComposerState) :
    Except String ComposerState :=
  runFrom g fuel g.entry s

/-! Concrete scenario inputs used to settle the claims.  The step bodies
below are stubs standing for the opaque agent implementations; the engine
treats every agent body as a black box, so any body is a legitimate input
of the engine.  The stubs mirror the fields the real nodes write. -/

/-- Initial state of the scenarios: max_revisions 3, everything empty. -/
def sInit : ComposerState := create_initial_state "t" 3

/-- A step body that signals a business failure by appending to the error
list and returning, the way planner_node does in its except clause. -/
def stepA_fail : StepFn := fun s =>
  .ok { s with errors := s.errors ++ ["Planning error: boom"],
               current_agent := "A", workflow_step := "error" }

/-- A step body that succeeds and only marks itself current. -/
def stepB_ok : StepFn := fun s => .ok { s with current_agent := "B" }

/-- Two enabled linear steps, the first of which fails. -/
def cfgAB : List AgentConfig :=
  [{ name := "A", enabled := true, edge_type := "linear", routing_map := [] },
   { name := "B", enabled := true, edge_type := "linear", routing_map := [] }]

def regAB : String → Option StepFn := fun n =>
  if n == "A" then some stepA_fail
  else if n == "B" then some stepB_ok
  else none

def gAB : CompiledGraph :=
  { entry := "A"
    nodes := buildNodes "t" cfgAB regAB
    edges := buildEdges cfgAB (addedNames cfgAB regAB) }

/-- The final state of running gAB from sInit. -/
def finalAB : ComposerState :=
  { use_case := "t", workflow_step := "error", current_agent := "B",
    completed_steps := ["A", "B"], quality_score := none,
    revision_count := 0, max_revisions := 3,
    errors := ["Planning error: boom"] }

/-- The except clause of critique_node (agent_nodes.py, lines 1492-1497):
the exception text is recorded in the error list, the current agent and
the error workflow marker are set, and the state is returned. -/
def critique_node_catch (e : String) (state : ComposerState) : ComposerState :=
  { state with errors := state.errors ++ ["Critique error: " ++ e],
               current_agent := "critique", workflow_step := "error" }

/-- A conditional critique step whose body fails through its own except
clause. -/
def critique_error_stub : StepFn := fun s => .ok (critique_node_catch "boom" s)

def cfgCE : List AgentConfig :=
  [{ name := "critique", enabled := true, edge_type := "conditional",
     routing_map := [("end", "END")] }]

def regCE : String → Option StepFn := fun n =>
  if n == "critique" then some critique_error_stub else none

def gCE : CompiledGraph :=
  { entry := "critique"
    nodes := buildNodes "t" cfgCE regCE
    edges := buildEdges cfgCE (addedNames cfgCE regCE) }

/-- The state produced by the failing critique node of gCE from sInit. -/
def finalCE : ComposerState :=
  { use_case := "t", workflow_step := "error", current_agent := "critique",
    completed_steps := ["critique"], quality_score := none,
    revision_count := 0, max_revisions := 3,
    errors := ["Critique error: boom"] }

/-- A step body whose exception escapes the step implementation. -/
def stepRaise : StepFn := fun _ => .error "boom"

def cfgR : List AgentConfig :=
  [{ name := "R", enabled := true, edge_type := "linear", routing_map := [] }]

def regR : String → Option StepFn := fun n =>
  if n == "R" then some stepRaise else none

def gR : CompiledGraph :=
  { entry := "R"
    nodes := buildNodes "t" cfgR regR
    edges := buildEdges cfgR (addedNames cfgR regR) }

/-- A conditional critique step whose routing map lacks the end label. -/
def critique_pass_stub : StepFn := fun s =>
  .ok { s with current_agent := "critique", workflow_step := "critique_complete",
               quality_score := some 8 }

def cfgNoEnd : List AgentConfig :=
  [{ name := "critique", enabled := true, edge_type := "conditional",
     routing_map := [("revise", "writer")] }]

def regNoEnd : String → Option StepFn := fun n =>
  if n == "critique" then some critique_pass_stub else none

def gNoEnd : CompiledGraph :=
  { entry := "critique"
    nodes := buildNodes "t" cfgNoEnd regNoEnd
    edges := buildEdges cfgNoEnd (addedNames cfgNoEnd regNoEnd) }

/-- The writer and critique stubs of the revision-loop scenario of the
spec: the critique body always reports a quality score of 5.0. -/
def writer_stub : StepFn := fun s =>
  .ok { s with current_agent := "writer", workflow_step := "writing_complete" }

def critique_low_stub : StepFn := fun s =>
  .ok { s with current_agent := "critique", workflow_step := "critique_complete",
               quality_score := some 5 }

def mWC : RoutingMap := [("revise", "writer"), ("end", "END")]

def cfgWC : List AgentConfig :=
  [{ name := "writer", enabled := true, edge_type := "linear", routing_map := [] },
   { name := "critique", enabled := true, edge_type := "conditional", routing_map := mWC }]

def regWC : String → Option StepFn := fun n =>
  if n == "writer" then some writer_stub
  else if n == "critique" then some critique_low_stub
  else none

def gWC : CompiledGraph :=
  { entry := "writer"
    nodes := buildNodes "t" cfgWC regWC
    edges := buildEdges cfgWC (addedNames cfgWC regWC) }

/-- The state after the first writer pass of gWC from sInit. -/
def s1WC : ComposerState :=
  { use_case := "t", workflow_step := "writing_complete", current_agent := "writer",
    completed_steps := ["writer"], quality_score := none,
    revision_count := 0, max_revisions := 3, errors := [] }

/-- The state after every critique pass of gWC: the revision-loop cycle
re-enters the writer with exactly this state. -/
def s2WC : ComposerState :=
  { use_case := "t", workflow_step := "critique_complete", current_agent := "critique",
    completed_steps := ["writer", "critique"], quality_score := some 5,
    revision_count := 0, max_revisions := 3, errors := [] }

/-- The state after a writer pass inside the revision loop of gWC. -/
def s3WC : ComposerState :=
  { use_case := "t", workflow_step := "writing_complete", current_agent := "writer",
    completed_steps := ["writer", "critique"], quality_score := some 5,
    revision_count := 0, max_revisions := 3, errors := [] }

/-- Three enabled linear steps with the given names. -/
def threeLinear (a b c : String) : List AgentConfig :=
  [{ name := a, enabled := true, edge_type := "linear", routing_map := [] },
   { name := b, enabled := true, edge_type := "linear", routing_map := [] },
   { name := c, enabled := true, edge_type := "linear", routing_map := [] }]

/-- A registry that resolves every name to a body that never fails. -/
def totalRegistry (upd : String → ComposerState → ComposerState) :
    String → Option StepFn :=
  fun n => some (fun st => .ok (upd n st))

/-- The pipeline compiled from three enabled linear steps. -/
def threeGraph (uc a b c : String) (upd : String → ComposerState → ComposerState) :
    CompiledGraph :=
  { entry := a
    nodes := buildNodes uc (threeLinear a b c) (totalRegistry upd)
    edges := buildEdges (threeLinear a b c)
               (addedNames (threeLinear a b c) (totalRegistry upd)) }

/-- A step body that leaves the completed_steps bookkeeping alone, as
every agent body of the repository does: only the wrapper maintains it. -/
def KeepsSteps (f : StepFn) : Prop :=
  ∀ s r, f s = .ok r → r.completed_steps = s.completed_steps

/-- The state produced by one wrapped non-failing step: the body runs on
the state with the use case set, then the wrapper records the step. -/
def linStep (uc : String) (upd : String → ComposerState → ComposerState)
    (n : String) (st : ComposerState) : ComposerState :=
  appendStep n (upd n { st with use_case := uc })

/-! Theorems for the claims about the routing decision function. -/

/-- C8: at the quality gate with no errors, a workflow not marked
completed and revision budget remaining, a quality score of exactly 7.0
routes to end, not revise. -/
theorem route_at_threshold_is_end (s : ComposerState) (m : RoutingMap)
    (herr : s.errors = []) (hwf : s.workflow_step ≠ "completed")
    (hrc : s.revision_count < s.max_revisions)
    (hag : s.current_agent = "critique") (hq : s.quality_score = some 7) :
    route_conditional_agent s m = "end" := by
  simp [route_conditional_agent, should_continue_workflow, herr, hwf, hag, hq,
    qsTruthy, qsBelow7, Nat.not_le.mpr hrc]

theorem route_at_threshold_is_end_witness :
    route_conditional_agent
      { create_initial_state "story_generator" 3 with
          current_agent := "critique", quality_score := some 7 }
      [("revise", "writer"), ("end", "END")] = "end" :=
  route_at_threshold_is_end
    { create_initial_state "story_generator" 3 with
        current_agent := "critique", quality_score := some 7 }
    [("revise", "writer"), ("end", "END")]
    rfl (by decide) (by decide) rfl rfl

/-- C9: at the quality gate with no errors, a workflow not marked
completed and revision budget remaining, a falsy quality score (0.0 or
None) routes to end even though 0.0 is strictly below the threshold: the
truthiness guard short-circuits the comparison. -/
theorem route_at_falsy_score_is_end (s : ComposerState) (m : RoutingMap)
    (herr : s.errors = []) (hwf : s.workflow_step ≠ "completed")
    (hrc : s.revision_count < s.max_revisions)
    (hag : s.current_agent = "critique")
    (hq : s.quality_score = some 0 ∨ s.quality_score = none) :
    route_conditional_agent s m = "end" := by
  rcases hq with hq | hq <;>
    simp [route_conditional_agent, should_continue_workflow, herr, hwf, hag, hq,
      qsTruthy, qsBelow7, Nat.not_le.mpr hrc]

theorem route_at_falsy_score_is_end_witness :
    route_conditional_agent
      { create_initial_state "story_generator" 3 with
          current_agent := "critique", quality_score := some 0 }
      [("revise", "writer"), ("end", "END")] = "end" :=
  route_at_falsy_score_is_end
    { create_initial_state "story_generator" 3 with
        current_agent := "critique", quality_score := some 0 }
    [("revise", "writer"), ("end", "END")]
    rfl (by decide) (by decide) rfl (Or.inl rfl)

/-- C5: a use case whose step list has no step that is both enabled and
resolvable in the registry fails to compile with the configuration error
raised by _build_workflow; no empty pipeline is produced and no step is
ever invoked by compilation. -/
theorem compile_fails_without_enabled_steps (uc : String)
    (agents : List AgentConfig) (registry : String → Option StepFn)
    (h : ∀ c ∈ agents, c.enabled = true → registry c.name = none) :
    compileUseCase uc agents registry =
      .error ("No valid agent nodes found for use case " ++ uc) := by
  have hadded : addedNames (get_enabled_agents agents) registry = [] := by
    rw [addedNames, List.filterMap_eq_nil_iff]
    intro c hc
    rcases List.mem_filter.mp hc with ⟨hmem, hen⟩
    rw [h c hmem hen]
    rfl
  rw [compileUseCase, buildWorkflow, hadded]

theorem compile_fails_without_enabled_steps_witness :
    compileUseCase "story_generator"
      [{ name := "planner", enabled := false, edge_type := "linear", routing_map := [] },
       { name := "writer", enabled := false, edge_type := "linear", routing_map := [] }]
      (fun _ => none) =
      .error ("No valid agent nodes found for use case " ++ "story_generator") :=
  compile_fails_without_enabled_steps "story_generator"
    [{ name := "planner", enabled := false, edge_type := "linear", routing_map := [] },
     { name := "writer", enabled := false, edge_type := "linear", routing_map := [] }]
    (fun _ => none)
    (by intro c hc hen; rfl)

/-! Stepping lemmas for the revision-loop scenario gWC: one unfolding of
the interpreter per node visit.  Each is definitional. -/

theorem runWC_init (fuel : Nat) :
    runFrom gWC (fuel + 1) "writer" sInit = runFrom gWC fuel "critique" s1WC := rfl

theorem runWC_enter (fuel : Nat) :
    runFrom gWC (fuel + 1) "critique" s1WC = runFrom gWC fuel "writer" s2WC := rfl

theorem runWC_cycleA (fuel : Nat) :
    runFrom gWC (fuel + 1) "writer" s2WC = runFrom gWC fuel "critique" s3WC := rfl

theorem runWC_cycleB (fuel : Nat) :
    runFrom gWC (fuel + 1) "critique" s3WC = runFrom gWC fuel "writer" s2WC := rfl

theorem runWC_cycle_diverges (fuel : Nat) :
    runFrom gWC fuel "writer" s2WC = .error "GraphRecursionError" := by
  induction fuel using Nat.strong_induction_on with
  | _ fuel ih =>
    match fuel with
    | 0 => rfl
    | 1 => rfl
    | n + 2 =>
      rw [runWC_cycleA, runWC_cycleB]
      exact ih n (by omega)

/-- C1: the claim asserts that with a quality score below threshold
forever, run terminates within max_revisions + 1 gate evaluations.  The
code never increments revision_count, so the gate keeps selecting revise
and the run never terminates for any amount of fuel: it always hits the
recursion-limit error of the runtime.  This theorem evaluates the code at
the failing input (two-step pipeline writer then critique, quality always
5.0, max_revisions 3, error-free states). -/
theorem revise_loop_never_terminates (fuel : Nat) :
    runGraph gWC fuel sInit = .error "GraphRecursionError" := by
  match fuel with
  | 0 => rfl
  | 1 => rfl
  | n + 2 =>
    show runFrom gWC (n + 2) "writer" sInit = _
    rw [runWC_init, runWC_enter]
    exact runWC_cycle_diverges n

/-- C2: the claim asserts that a routed revise transition increments
revision_count by exactly one.  In the code the decision function only
returns a label and nothing ever writes revision_count: here the gate
selects revise on the state s3WC produced inside the loop, the writer is
re-entered with the unchanged state s2WC, and revision_count is still 0
on both sides of the transition (the claim requires 1 after it).  The
second conjunct is true vacuously strongly: the increment happens nowhere
at all. -/
theorem revise_transition_keeps_revision_count :
    route_conditional_agent s2WC mWC = "revise" ∧
    (∀ fuel, runFrom gWC (fuel + 1) "critique" s3WC = runFrom gWC fuel "writer" s2WC) ∧
    s3WC.revision_count = 0 ∧ s2WC.revision_count = 0 :=
  ⟨by decide, fun fuel => runWC_cycleB fuel, rfl, rfl⟩

/-- C3 counterexample: step A appends an error and its outgoing edge is
linear, yet step B still executes: the final completed_steps is the full
list A, B although the error list was already non-empty after A.  Linear
edges never consult the error list, so the claim fails for them. -/
theorem error_then_linear_successor_still_runs :
    runGraph gAB 10 sInit = .ok finalAB ∧
    finalAB.completed_steps = ["A", "B"] ∧
    finalAB.errors ≠ [] :=
  ⟨rfl, rfl, by decide⟩

/-- C3 amended: the halt-on-error rule holds exactly at conditional
routing decisions: when the step that left the error list non-empty has
a conditional outgoing edge whose map binds the end label to the
terminal, the run returns right there with the failing step state, and
no further step executes. -/
theorem halt_on_error_at_conditional_gate (g : CompiledGraph) (node : String)
    (fn : StepFn) (m : RoutingMap) (fuel : Nat) (s s1 : ComposerState)
    (hn : List.lookup node g.nodes = some fn) (hfn : fn s = .ok s1)
    (he : List.lookup node g.edges = some (.conditional m))
    (herr : s1.errors ≠ []) (hend : rmGet m "end" = some "END") :
    runFrom g (fuel + 1) node s = .ok s1 := by
  have hsc : should_continue_workflow s1 = false := by
    rcases h : s1.errors with _ | ⟨a, l⟩
    · exact absurd h herr
    · simp [should_continue_workflow, h]
  have hroute : route_conditional_agent s1 m = "end" := by
    simp [route_conditional_agent, hsc]
  simp [runFrom, hn, hfn, he, nextTarget, hroute, hend]

theorem halt_on_error_at_conditional_gate_witness :
    runFrom gCE (0 + 1) "critique" sInit = .ok finalCE :=
  halt_on_error_at_conditional_gate gCE "critique"
    (wrapAgent "t" critique_error_stub "critique") [("end", "END")] 0 sInit finalCE
    rfl rfl rfl (by decide) rfl

/-- C4 counterexample: a step implementation whose exception escapes is
not converted into a returned state: run propagates the error to the
caller instead of returning a State Record with the error recorded. -/
theorem run_propagates_escaped_exception :
    runGraph gR 5 sInit = .error "boom" := rfl

/-- C4 amended: exception capture lives in the step bodies, not in the
engine.  The except clause of critique_node records the exception in the
error list and returns the state with the error workflow marker, so a
pipeline whose failing step catches its own exception does return a
State Record normally; but an exception that escapes a step body
propagates out of run unchanged for every initial state. -/
theorem step_exception_policy (e : String) (s : ComposerState) :
    (critique_node_catch e s).errors ≠ [] ∧
    (critique_node_catch e s).workflow_step = "error" ∧
    runGraph gCE 5 { s with errors := [], completed_steps := [] } =
      .ok (appendStep "critique"
            (critique_node_catch "boom"
              { s with errors := [], completed_steps := [], use_case := "t" })) ∧
    runGraph gR 5 s = .error "boom" :=
  ⟨by simp [critique_node_catch], rfl, rfl, rfl⟩

/-- C7 counterexample: a conditional step whose routing map lacks the
end label does not route to terminal when the decision function returns
end: resolving the returned label through the map fails with a runtime
lookup error, so the run fails instead of ending. -/
theorem missing_end_label_fails_run :
    runGraph gNoEnd 5 sInit = .error ("KeyError: " ++ "end") := rfl

/-- C7 amended: the decision function itself does tolerate absent labels,
in that it returns the label end without consulting the routing map; but
the compiled conditional edge resolves the returned label through the
map, so whenever the map lacks the end label returned by the decision
function the edge resolution is a runtime lookup error rather than a
route to terminal. -/
theorem missing_end_label_is_lookup_error (m : RoutingMap) (s : ComposerState)
    (hroute : route_conditional_agent s m = "end")
    (hend : rmGet m "end" = none) :
    nextTarget (.conditional m) s = .error ("KeyError: " ++ "end") := by
  simp [nextTarget, hroute, hend]

theorem missing_end_label_is_lookup_error_witness :
    nextTarget (.conditional [("revise", "writer")])
      { sInit with current_agent := "critique", quality_score := some 8 } =
      .error ("KeyError: " ++ "end") :=
  missing_end_label_is_lookup_error [("revise", "writer")]
    { sInit with current_agent := "critique", quality_score := some 8 }
    (by decide) rfl

/-! Helper lemmas for the generic engine proofs. -/

theorem mem_of_lookup_eq_some {β : Type} :
    ∀ {l : List (String × β)} {k : String} {v : β},
      List.lookup k l = some v → (k, v) ∈ l := by
  intro l
  induction l with
  | nil => intro k v h; cases h
  | cons p t ih =>
      intro k v h
      obtain ⟨k2, v2⟩ := p
      by_cases hk : k = k2
      · subst hk
        rw [List.lookup_cons] at h
        simp at h
        simp [h]
      · rw [List.lookup_cons, beq_false_of_ne hk] at h
        exact List.mem_cons_of_mem _ (ih h)

theorem appendStep_completed_nodup (name : String) (r : ComposerState)
    (h : r.completed_steps.Nodup) : (appendStep name r).completed_steps.Nodup := by
  rw [appendStep]
  split
  · exact h
  · rename_i hc
    rw [← List.concat_eq_append]
    exact List.Nodup.concat (by simp_all) h

theorem wrapAgent_preserves_nodup (uc : String) (f : StepFn) (name : String)
    (hf : KeepsSteps f) (s r : ComposerState)
    (h : wrapAgent uc f name s = .ok r) (hs : s.completed_steps.Nodup) :
    r.completed_steps.Nodup := by
  rw [wrapAgent] at h
  cases hfs : f { s with use_case := uc } with
  | error e => rw [hfs] at h; cases h
  | ok r0 =>
      rw [hfs] at h
      cases h
      apply appendStep_completed_nodup
      rw [hf _ _ hfs]
      exact hs

/-- C10: completed_steps never holds duplicates.  Every node installed by
the compiler is a wrapped agent whose body leaves completed_steps alone
(no agent body of the repository touches it), and the wrapper appends the
agent name only when it is absent, so any successful run started from a
duplicate-free completed_steps list ends with a duplicate-free one; in
particular a step re-entered through the revise loop appears at most
once. -/
theorem completed_steps_no_duplicates (g : CompiledGraph)
    (hg : ∀ p ∈ g.nodes, ∃ uc f name, p.2 = wrapAgent uc f name ∧ KeepsSteps f)
    (fuel : Nat) (node : String) (s final : ComposerState)
    (hrun : runFrom g fuel node s = .ok final)
    (h0 : s.completed_steps.Nodup) :
    final.completed_steps.Nodup := by
  induction fuel generalizing node s with
  | zero => cases hrun
  | succ n ih =>
      rw [runFrom] at hrun
      split at hrun
      · cases hrun
      · rename_i fn hl
        split at hrun
        · cases hrun
        · rename_i s1 hfs
          have hs1 : s1.completed_steps.Nodup := by
            obtain ⟨uc, f, name, hfn, hk⟩ := hg (node, fn) (mem_of_lookup_eq_some hl)
            simp only at hfn
            rw [hfn] at hfs
            exact wrapAgent_preserves_nodup uc f name hk s s1 hfs h0
          split at hrun
          · cases hrun
          · split at hrun
            · cases hrun
            · cases hrun; exact hs1
            · rename_i nxt hn
              exact ih nxt s1 hrun hs1

theorem completed_steps_no_duplicates_witness :
    finalAB.completed_steps.Nodup :=
  completed_steps_no_duplicates gAB
    (by
      intro p hp
      have hcases : p = ("A", wrapAgent "t" stepA_fail "A") ∨
          p = ("B", wrapAgent "t" stepB_ok "B") := by
        simpa [gAB, buildNodes, cfgAB, regAB] using hp
      rcases hcases with h | h
      · exact ⟨"t", stepA_fail, "A", by rw [h],
          by intro s r hr; cases hr; rfl⟩
      · exact ⟨"t", stepB_ok, "B", by rw [h],
          by intro s r hr; cases hr; rfl⟩)
    10 "A" sInit finalAB rfl (by decide)

/-! Helper lemmas for the linear-pipeline proof. -/

theorem appendStep_errors (name : String) (r : ComposerState) :
    (appendStep name r).errors = r.errors := by
  rw [appendStep]; split <;> rfl

theorem appendStep_completed (name : String) (r : ComposerState)
    (h : r.completed_steps.contains name = false) :
    (appendStep name r).completed_steps = r.completed_steps ++ [name] := by
  have h2 : ¬ r.completed_steps.contains name = true := by simp_all
  rw [appendStep, if_neg h2]

theorem lookup_cons_self {β : Type} (k : String) (v : β) (l : List (String × β)) :
    List.lookup k ((k, v) :: l) = some v := by
  simp [List.lookup_cons]

theorem lookup_cons_ne {β : Type} {k k2 : String} (h : k ≠ k2) (v : β)
    (l : List (String × β)) :
    List.lookup k ((k2, v) :: l) = List.lookup k l := by
  simp [List.lookup_cons, beq_false_of_ne h]

theorem wrapAgent_body_ok (uc : String) (f : StepFn) (name : String)
    (s r : ComposerState) (hf : f { s with use_case := uc } = .ok r) :
    wrapAgent uc f name s = .ok (appendStep name r) := by
  rw [wrapAgent, hf]

theorem runFrom_linear_step (g : CompiledGraph) (node : String) (fn : StepFn)
    (nxt : String) (fuel : Nat) (s s1 : ComposerState)
    (hn : List.lookup node g.nodes = some fn) (hfn : fn s = .ok s1)
    (he : List.lookup node g.edges = some (.linear (some nxt))) :
    runFrom g (fuel + 1) node s = runFrom g fuel nxt s1 := by
  simp [runFrom, hn, hfn, he, nextTarget]

theorem runFrom_linear_last (g : CompiledGraph) (node : String) (fn : StepFn)
    (fuel : Nat) (s s1 : ComposerState)
    (hn : List.lookup node g.nodes = some fn) (hfn : fn s = .ok s1)
    (he : List.lookup node g.edges = some (.linear none)) :
    runFrom g (fuel + 1) node s = .ok s1 := by
  simp [runFrom, hn, hfn, he, nextTarget]

/-- C6: three enabled linear steps with distinct names compile to the
pipeline whose successor structure is first to second, second to third,
third to terminal, and an error-free run executes them in declared order,
terminating with completed_steps holding exactly the three names in
order. -/
theorem linear_three_steps_run_in_order (uc a b c : String)
    (upd : String → ComposerState → ComposerState)
    (hab : a ≠ b) (hac : a ≠ c) (hbc : b ≠ c)
    (hsteps : ∀ n st, (upd n st).completed_steps = st.completed_steps)
    (herrs : ∀ n st, (upd n st).errors = st.errors)
    (s : ComposerState) (hs : s.completed_steps = []) (hse : s.errors = []) :
    compileUseCase uc (threeLinear a b c) (totalRegistry upd) =
      .ok (threeGraph uc a b c upd) ∧
    (threeGraph uc a b c upd).edges =
      [(a, .linear (some b)), (b, .linear (some c)), (c, .linear none)] ∧
    runGraph (threeGraph uc a b c upd) 3 s =
      .ok (linStep uc upd c (linStep uc upd b (linStep uc upd a s))) ∧
    (linStep uc upd c (linStep uc upd b (linStep uc upd a s))).completed_steps =
      [a, b, c] ∧
    (linStep uc upd c (linStep uc upd b (linStep uc upd a s))).errors = [] := by
  have hlc : (("linear" : String) == "conditional") = false := by decide
  have hedges : (threeGraph uc a b c upd).edges =
      [(a, .linear (some b)), (b, .linear (some c)), (c, .linear none)] := by
    simp [threeGraph, buildEdges, buildEdgesGo, threeLinear, addedNames,
      totalRegistry, agentEdge, linearNext, hlc, List.get?]
  have hnodes : (threeGraph uc a b c upd).nodes =
      [(a, wrapAgent uc (fun st => .ok (upd a st)) a),
       (b, wrapAgent uc (fun st => .ok (upd b st)) b),
       (c, wrapAgent uc (fun st => .ok (upd c st)) c)] := rfl
  -- the three step states
  have hcomp1 : (linStep uc upd a s).completed_steps = [a] := by
    have h0 : (upd a { s with use_case := uc }).completed_steps = [] := by
      rw [hsteps]; exact hs
    rw [linStep, appendStep_completed _ _ (by rw [h0]; rfl), h0]
    rfl
  have hcomp2 : (linStep uc upd b (linStep uc upd a s)).completed_steps = [a, b] := by
    have h0 : (upd b { linStep uc upd a s with use_case := uc }).completed_steps
        = [a] := by
      rw [hsteps]; exact hcomp1
    rw [linStep, appendStep_completed _ _ (by simp [h0, List.contains_cons, hab.symm]), h0]
    rfl
  have hcomp3 : (linStep uc upd c (linStep uc upd b (linStep uc upd a s))).completed_steps
      = [a, b, c] := by
    have h0 : (upd c { linStep uc upd b (linStep uc upd a s) with
        use_case := uc }).completed_steps = [a, b] := by
      rw [hsteps]; exact hcomp2
    rw [linStep, appendStep_completed _ _
      (by simp [h0, List.contains_cons, hac.symm, hbc.symm]), h0]
    rfl
  have herr_any : ∀ n st, (linStep uc upd n st).errors = st.errors := by
    intro n st
    rw [linStep, appendStep_errors, herrs]
  have herr3 : (linStep uc upd c (linStep uc upd b (linStep uc upd a s))).errors = [] := by
    rw [herr_any, herr_any, herr_any]
    exact hse
  refine ⟨rfl, hedges, ?_, hcomp3, herr3⟩
  have hnA : List.lookup a (threeGraph uc a b c upd).nodes =
      some (wrapAgent uc (fun st => .ok (upd a st)) a) := by
    rw [hnodes]; exact lookup_cons_self _ _ _
  have hnB : List.lookup b (threeGraph uc a b c upd).nodes =
      some (wrapAgent uc (fun st => .ok (upd b st)) b) := by
    rw [hnodes, lookup_cons_ne (Ne.symm hab)]; exact lookup_cons_self _ _ _
  have hnC : List.lookup c (threeGraph uc a b c upd).nodes =
      some (wrapAgent uc (fun st => .ok (upd c st)) c) := by
    rw [hnodes, lookup_cons_ne (Ne.symm hac), lookup_cons_ne (Ne.symm hbc)]
    exact lookup_cons_self _ _ _
  have heA : List.lookup a (threeGraph uc a b c upd).edges =
      some (.linear (some b)) := by
    rw [hedges]; exact lookup_cons_self _ _ _
  have heB : List.lookup b (threeGraph uc a b c upd).edges =
      some (.linear (some c)) := by
    rw [hedges, lookup_cons_ne (Ne.symm hab)]; exact lookup_cons_self _ _ _
  have heC : List.lookup c (threeGraph uc a b c upd).edges =
      some (.linear none) := by
    rw [hedges, lookup_cons_ne (Ne.symm hac), lookup_cons_ne (Ne.symm hbc)]
    exact lookup_cons_self _ _ _
  show runFrom (threeGraph uc a b c upd) 3 a s = _
  rw [runFrom_linear_step _ a _ b 2 s (linStep uc upd a s) hnA
        (wrapAgent_body_ok _ _ _ _ _ rfl) heA,
      runFrom_linear_step _ b _ c 1 _ (linStep uc upd b (linStep uc upd a s)) hnB
        (wrapAgent_body_ok _ _ _ _ _ rfl) heB,
      runFrom_linear_last _ c _ 0 _
        (linStep uc upd c (linStep uc upd b (linStep uc upd a s))) hnC
        (wrapAgent_body_ok _ _ _ _ _ rfl) heC]

theorem linear_three_steps_run_in_order_witness :
    compileUseCase "t" (threeLinear "planner" "writer" "formatter")
      (totalRegistry (fun _ st => st)) =
      .ok (threeGraph "t" "planner" "writer" "formatter" (fun _ st => st)) ∧
    (threeGraph "t" "planner" "writer" "formatter" (fun _ st => st)).edges =
      [("planner", .linear (some "writer")), ("writer", .linear (some "formatter")),
       ("formatter", .linear none)] ∧
    runGraph (threeGraph "t" "planner" "writer" "formatter" (fun _ st => st)) 3 sInit =
      .ok (linStep "t" (fun _ st => st) "formatter"
            (linStep "t" (fun _ st => st) "writer"
              (linStep "t" (fun _ st => st) "planner" sInit))) ∧
    (linStep "t" (fun _ st => st) "formatter"
      (linStep "t" (fun _ st => st) "writer"
        (linStep "t" (fun _ st => st) "planner" sInit))).completed_steps =
      ["planner", "writer", "formatter"] ∧
    (linStep "t" (fun _ st => st) "formatter"
      (linStep "t" (fun _ st => st) "writer"
        (linStep "t" (fun _ st => st) "planner" sInit))).errors = [] :=
  linear_three_steps_run_in_order "t" "planner" "writer" "formatter" (fun _ st => st)
    (by decide) (by decide) (by decide)
    (fun _ _ => rfl) (fun _ _ => rfl) sInit rfl rfl

end StoryApp
